import Mathlib

/-!
Verification of the BabyPod offline-first synchronization engine
(`offline_event_queue.py`, `api.py`, `flow.py`) against its specification.

The embedding models:
- JSON values and Python-dict operations (insertion-ordered association lists);
- the `Timer` entity of `api.py` with `as_payload` / `from_payload` /
  `start_or_resume`;
- the five `Post*APIRequest` classes with their `serialize_to_json` /
  `deserialize_from_json` methods;
- the `OfflineEventQueue`: filename generation (`build_json_filename`),
  listing (`get_json_files`), `add`, and the replay loop (`replay_all`)
  including its timer-reference reconciliation;
- datetimes as produced by the RTC, and the zero-padded fixed-width
  filename encoding.

ISO-8601 timestamps are carried as opaque strings: `datetime.isoformat` and
`datetime.fromisoformat` are mutually inverse on the values this program
produces, so both are modelled as the identity on the string representation.
Python exceptions are modelled with `Except`; the filesystem is a list of
(filename, content) pairs owned exclusively by the queue.
-/

/-- A JSON value.  Python floats are carried opaquely as rationals: the
program never performs arithmetic on them, they only pass through the
serialization pipeline. -/
inductive JsonVal where
  | bool (b : Bool)
  | int (n : Int)
  | float (q : Rat)
  | str (s : String)
  | obj (fields : List (String × JsonVal))

/-- A Python dict with string keys, as an insertion-ordered association list
(CPython dicts preserve insertion order). -/
abbrev Dict := List (String × JsonVal)

/-- Python exceptions raised by the modelled code. -/
inductive Exc where
  | valueError (msg : String)
  | keyError (key : String)
  | typeError
  | runtimeError (msg : String)
  | jsonDecodeError
  | osError
  | requestFailed
deriving DecidableEq

/-- `key in d` for a Python dict. -/
def containsKey (d : Dict) (k : String) : Bool :=
  d.any (fun kv => kv.1 == k)

/-- Successful dict lookup, `d.get(k)`. -/
def dictFind (d : Dict) (k : String) : Option JsonVal :=
  (d.find? (fun kv => kv.1 == k)).map Prod.snd

/-- `d[k]`, raising `KeyError` when the key is absent. -/
def dictGet (d : Dict) (k : String) : Except Exc JsonVal :=
  match dictFind d k with
  | some v => .ok v
  | none => .error (.keyError k)

/-- `d[k] = v`: replace in place if the key exists, else append. -/
def dictSet (d : Dict) (k : String) (v : JsonVal) : Dict :=
  if containsKey d k then d.map (fun kv => if kv.1 == k then (k, v) else kv)
  else d ++ [(k, v)]

/-- `base.update(frag)` on Python dicts. -/
def dictUpdate (base frag : Dict) : Dict :=
  frag.foldl (fun acc kv => dictSet acc kv.1 kv.2) base

/-- `del d[k]`. -/
def dictErase (d : Dict) (k : String) : Dict :=
  d.filter (fun kv => !(kv.1 == k))

/-- `item[k]` on a JSON value: `KeyError` when the key is missing,
`TypeError` when the value is not an object. -/
def JsonVal.getKey (j : JsonVal) (k : String) : Except Exc JsonVal :=
  match j with
  | .obj fields => dictGet fields k
  | _ => .error .typeError

/-- Python `==` between a JSON value and an `int` (in Python, `True == 1`
and `False == 0`; other types never equal an int). -/
def pyEqInt (v : JsonVal) (i : Int) : Bool :=
  match v with
  | .int n => n == i
  | .bool b => (if b then (1 : Int) else 0) == i
  | _ => false

/-- Python `v in ids` for a list of ints. -/
def pyMemInt (v : JsonVal) (ids : List Int) : Bool :=
  ids.any (fun i => pyEqInt v i)

/-- The `Timer` entity of `api.py`.  `has_rtc` records whether `self.rtc`
is not `None`; timestamps are opaque ISO strings. -/
structure Timer where
  name : String
  offline : Bool
  started_at : Option String
  ended_at : Option String
  timer_id : Option JsonVal
  has_rtc : Bool

/-- `Timer.as_payload`.  `now` is the value `self.rtc.now()` would return;
it is read only when `ended_at` is unset and an RTC is present.  Calling
`.isoformat()` on a still-unset `ended_at` (no RTC) raises, modelled as
`typeError`.  Returns the payload fragment together with the (possibly
mutated) timer. -/
def Timer.as_payload (t : Timer) (now : String) : Except Exc (Dict × Timer) :=
  match t.timer_id with
  | some v => .ok ([("timer", v)], t)
  | none =>
    match t.started_at with
    | none => .error (.valueError "Timer was never started or resumed")
    | some s =>
      let t2 := if t.ended_at.isNone && t.has_rtc then { t with ended_at := some now } else t
      match t2.ended_at with
      | some e => .ok ([("start", .str s), ("end", .str e)], t2)
      | none => .error .typeError

/-- `Timer.from_payload`: rebuilds a timer from a serialized fragment,
without any remote call. -/
def Timer.from_payload (name : String) (payload : JsonVal) : Except Exc Timer :=
  match payload with
  | .obj fields =>
    match dictFind fields "timer" with
    | some v =>
      .ok { name := name, offline := false, started_at := none, ended_at := none,
            timer_id := some v, has_rtc := false }
    | none =>
      match dictFind fields "start", dictFind fields "end" with
      | some sv, some ev =>
        match sv, ev with
        | .str s, .str e =>
          .ok { name := name, offline := true, started_at := some s, ended_at := some e,
                timer_id := none, has_rtc := false }
        | _, _ => .error .typeError
      | _, _ => .error (.valueError "Dont know how to create a timer from this payload")
  | _ => .error .typeError

/-- A concrete `APIRequest` object: class name, endpoint, payload dict and
the attached timer, as built by the class constructors. -/
structure APIRequestObj where
  className : String
  uri : String
  payload : Option Dict
  timer : Option Timer

/-- `APIRequest.merge_timer`: merge the timer fragment into the payload;
`None` timers leave it untouched. -/
def merge_timer (payload : Dict) (timer : Option Timer) (now : String) :
    Except Exc (Dict × Option Timer) :=
  match timer with
  | none => .ok (payload, none)
  | some t => (Timer.as_payload t now).map (fun pr => (dictUpdate payload pr.1, some pr.2))

/-- `self.payload` where a `None` payload would raise on subscripting. -/
def payloadDict (r : APIRequestObj) : Except Exc Dict :=
  match r.payload with
  | some p => .ok p
  | none => .error .typeError

namespace PostChangeAPIRequest

def init (child is_wet is_solid : JsonVal) : APIRequestObj :=
  { className := "PostChangeAPIRequest", uri := "changes",
    payload := some [("child", child), ("wet", is_wet), ("solid", is_solid)],
    timer := none }

def serialize_to_json (r : APIRequestObj) : Except Exc JsonVal := do
  let p ← payloadDict r
  let c ← dictGet p "child"
  let w ← dictGet p "wet"
  let s ← dictGet p "solid"
  pure (.obj [("child_id", c), ("is_wet", w), ("is_solid", s)])

def deserialize_from_json (j : JsonVal) : Except Exc APIRequestObj := do
  let c ← j.getKey "child_id"
  let w ← j.getKey "is_wet"
  let s ← j.getKey "is_solid"
  pure (init c w s)

end PostChangeAPIRequest

namespace PostPumpingAPIRequest

def init (child amount : JsonVal) : APIRequestObj :=
  { className := "PostPumpingAPIRequest", uri := "pumping",
    payload := some [("child", child), ("amount", amount)],
    timer := none }

def serialize_to_json (r : APIRequestObj) : Except Exc JsonVal := do
  let p ← payloadDict r
  let c ← dictGet p "child"
  let a ← dictGet p "amount"
  pure (.obj [("child_id", c), ("amount", a)])

def deserialize_from_json (j : JsonVal) : Except Exc APIRequestObj := do
  let c ← j.getKey "child_id"
  let a ← j.getKey "amount"
  pure (init c a)

end PostPumpingAPIRequest

namespace PostTummyTimeAPIRequest

def init (child_id : JsonVal) (timer : Option Timer) (now : String) :
    Except Exc APIRequestObj := do
  let pr ← merge_timer [("child", child_id)] timer now
  pure { className := "PostTummyTimeAPIRequest", uri := "tummy-times",
         payload := some pr.1, timer := pr.2 }

def serialize_to_json (r : APIRequestObj) (now : String) : Except Exc JsonVal := do
  let p ← payloadDict r
  let c ← dictGet p "child"
  let pr ← merge_timer [("child_id", c)] r.timer now
  pure (.obj pr.1)

/-- Deserialized timers carry no RTC (`has_rtc = false`) and a complete
fragment, so the `now` passed to the constructor is never read; `""` is a
dummy. -/
def deserialize_from_json (j : JsonVal) : Except Exc APIRequestObj := do
  let timer ← Timer.from_payload "tummy-time" j
  let c ← j.getKey "child_id"
  init c (some timer) ""

end PostTummyTimeAPIRequest

namespace PostFeedingAPIRequest

def init (child_id food_type method : JsonVal) (timer : Option Timer) (now : String) :
    Except Exc APIRequestObj := do
  let pr ← merge_timer [("child", child_id), ("type", food_type), ("method", method)] timer now
  pure { className := "PostFeedingAPIRequest", uri := "feedings",
         payload := some pr.1, timer := pr.2 }

def serialize_to_json (r : APIRequestObj) (now : String) : Except Exc JsonVal := do
  let p ← payloadDict r
  let c ← dictGet p "child"
  let ft ← dictGet p "type"
  let m ← dictGet p "method"
  let pr ← merge_timer [("child_id", c), ("food_type", ft), ("method", m)] r.timer now
  pure (.obj pr.1)

def deserialize_from_json (j : JsonVal) : Except Exc APIRequestObj := do
  let timer ← Timer.from_payload "feeding" j
  let c ← j.getKey "child_id"
  let ft ← j.getKey "food_type"
  let m ← j.getKey "method"
  init c ft m (some timer) ""

end PostFeedingAPIRequest

namespace PostSleepAPIRequest

/-- Modelled from the spec: `PostSleepAPIRequest` is dispatched by
`OfflineEventQueue.init_api_request` and constructed by `flow.py` as
`PostSleepAPIRequest(child_id, timer)`, but its class body is absent from
`src/api.py`.  The spec lists `SleepEvent` among the closed operation kinds
whose record body is `{fields..., ["timer": id] | ["start", "end"]}`; it is
modelled exactly like its sibling `PostTummyTimeAPIRequest`: a child id
plus a timer fragment. -/
def init (child_id : JsonVal) (timer : Option Timer) (now : String) :
    Except Exc APIRequestObj := do
  let pr ← merge_timer [("child", child_id)] timer now
  pure { className := "PostSleepAPIRequest", uri := "sleep",
         payload := some pr.1, timer := pr.2 }

/-- Modelled from the spec: see `PostSleepAPIRequest.init`. -/
def serialize_to_json (r : APIRequestObj) (now : String) : Except Exc JsonVal := do
  let p ← payloadDict r
  let c ← dictGet p "child"
  let pr ← merge_timer [("child_id", c)] r.timer now
  pure (.obj pr.1)

/-- Modelled from the spec: see `PostSleepAPIRequest.init`. -/
def deserialize_from_json (j : JsonVal) : Except Exc APIRequestObj := do
  let timer ← Timer.from_payload "sleep" j
  let c ← j.getKey "child_id"
  init c (some timer) ""

end PostSleepAPIRequest

/-- `OfflineEventQueue.init_api_request`: string dispatch over the five
recognized request classes; anything else raises `ValueError` naming the
kind (the source message is an f-string interpolating the class name). -/
def init_api_request (class_name payload : JsonVal) : Except Exc APIRequestObj :=
  match class_name with
  | .str s =>
    if s = "PostFeedingAPIRequest" then PostFeedingAPIRequest.deserialize_from_json payload
    else if s = "PostChangeAPIRequest" then PostChangeAPIRequest.deserialize_from_json payload
    else if s = "PostPumpingAPIRequest" then PostPumpingAPIRequest.deserialize_from_json payload
    else if s = "PostTummyTimeAPIRequest" then PostTummyTimeAPIRequest.deserialize_from_json payload
    else if s = "PostSleepAPIRequest" then PostSleepAPIRequest.deserialize_from_json payload
    else .error (.valueError ("Dont know how to deserialize a " ++ s))
  | _ => .error (.valueError "Dont know how to deserialize a non-string type")

/-- The guarded reconstruction step of `replay_all`:
`init_api_request(item["type"], item["payload"])`. -/
def parse_request (item : JsonVal) : Except Exc APIRequestObj := do
  let t ← item.getKey "type"
  let p ← item.getKey "payload"
  init_api_request t p

/-- The reconciliation step of `replay_all` (lines 179-187): rewrite the
request payload against the live timer id set. -/
def reconcile_timer (liveIds : List Int) (r : APIRequestObj) : APIRequestObj :=
  match r.payload with
  | none => r
  | some p =>
    match dictFind p "timer" with
    | none => r
    | some tv =>
      if !(pyMemInt tv liveIds) then { r with payload := some (dictErase p "timer") }
      else if containsKey p "start" && containsKey p "end" then
        { r with payload := some (dictErase (dictErase p "start") "end") }
      else r

/-- Lexicographic comparison of char lists by code point, as Python
compares strings. -/
def charsLe : List Char → List Char → Bool
  | [], _ => true
  | _ :: _, [] => false
  | a :: as, b :: bs => if a < b then true else if b < a then false else charsLe as bs

/-- Python string `<=`. -/
def strLe (a b : String) : Bool := charsLe a.data b.data

/-- Python string `<` as a proposition: strict lexicographic order on the
characters. -/
def strLt (a b : String) : Prop := List.Lex (· < ·) a.data b.data

/-- The sort relation used by `files.sort()`. -/
def fileLe (a b : String) : Prop := strLe a b = true

instance : DecidableRel fileLe :=
  fun a b => inferInstanceAs (Decidable (strLe a b = true))

/-- `files.sort()`: sort filenames ascending lexicographically. -/
def sortFiles (files : List String) : List String :=
  List.insertionSort fileLe files

/-- One stored queue file: either a JSON document, or bytes that
`json.load` rejects. -/
inductive FileContent where
  | valid (item : JsonVal)
  | malformed

/-- The queue directory: filenames (relative to the queue path, which the
queue owns exclusively) mapped to contents, in arbitrary storage order. -/
abbrev FS := List (String × FileContent)

def FS.names (fs : FS) : List String := fs.map Prod.fst

def FS.lookup (fs : FS) (name : String) : Option FileContent :=
  (fs.find? (fun kv => kv.1 == name)).map Prod.snd

/-- `os.unlink`. -/
def FS.erase (fs : FS) (name : String) : FS :=
  fs.filter (fun kv => !(kv.1 == name))

/-- `OfflineEventQueue.get_json_files` applied to the raw `os.listdir`
output (which may come back in any storage order): sort the names.  The
source then prefixes each name with the queue path; the prefix map is kept
separate in `get_json_paths`. -/
def get_json_files (listing : List String) : List String :=
  sortFiles listing

/-- The full paths `get_json_files` returns. -/
def get_json_paths (path : String) (listing : List String) : List String :=
  (get_json_files listing).map (fun f => path ++ "/" ++ f)

/-- A datetime as read from the RTC (`adafruit_datetime`). -/
structure DateTime where
  year : Nat
  month : Nat
  day : Nat
  hour : Nat
  minute : Nat
  second : Nat

/-- Field bounds under which the f-string paddings `{:04}` / `{:02}` are
exact fixed widths.  Real calendar dates satisfy much tighter bounds. -/
def DateTime.Valid (d : DateTime) : Prop :=
  d.year < 10000 ∧ d.month < 100 ∧ d.day < 100 ∧ d.hour < 100 ∧ d.minute < 100 ∧ d.second < 100

/-- Chronological order on datetimes: lexicographic by field. -/
def DateTime.lt (a b : DateTime) : Prop :=
  a.year < b.year ∨ (a.year = b.year ∧
   (a.month < b.month ∨ (a.month = b.month ∧
    (a.day < b.day ∨ (a.day = b.day ∧
     (a.hour < b.hour ∨ (a.hour = b.hour ∧
      (a.minute < b.minute ∨ (a.minute = b.minute ∧
       a.second < b.second)))))))))

/-- Zero-padded fixed-width decimal encoding: `padChars w n` is the
`w`-character rendering of `n % 10^w`, most significant digit first, as
produced by the f-strings `{n:04}` / `{n:02}` for `n < 10^w`. -/
def padChars : Nat → Nat → List Char
  | 0, _ => []
  | w + 1, n => padChars w (n / 10) ++ [Nat.digitChar (n % 10)]

/-- `formatted_now`: `{year:04}{month:02}{day:02}{hour:02}{minute:02}{second:02}`. -/
def fmtD (d : DateTime) : List Char :=
  padChars 4 d.year ++ (padChars 2 d.month ++ (padChars 2 d.day ++
    (padChars 2 d.hour ++ (padChars 2 d.minute ++ padChars 2 d.second))))

/-- A candidate queue filename: `{formatted_now}-{i:04}.json`. -/
def candidateName (base : List Char) (i : Nat) : String :=
  String.mk (base ++ ('-' :: (padChars 4 i ++ ['.', 'j', 's', 'o', 'n'])))

/-- The suffix-probing loop of `build_json_filename` (`while i < 1000`),
with the remaining iteration count `1000 - i` as explicit fuel: starting
from suffix `i`, return the first candidate not already on disk; once the
1000 suffixes are exhausted give up with `ValueError`. -/
def buildLoop (names : List String) (base : List Char) (i : Nat) : Nat → Except Exc String
  | 0 => .error (.valueError "No candidate files available, somehow")
  | fuel + 1 =>
    if names.contains (candidateName base i) then buildLoop names base (i + 1) fuel
    else .ok (candidateName base i)

/-- `OfflineEventQueue.build_json_filename`. -/
def build_json_filename (names : List String) (d : DateTime) : Except Exc String :=
  buildLoop names (fmtD d) 0 1000

/-- `OfflineEventQueue.add` with the serialized record abstracted as `c`:
pick a filename from the current clock reading and persist the record
(nothing is written when filename generation fails). -/
def add (fs : FS) (d : DateTime) (c : FileContent) : Except Exc FS :=
  (build_json_filename (FS.names fs) d).map (fun n => fs ++ [(n, c)])

/-- `add` repeated `n` times under an unchanging clock reading. -/
def iterAdd (d : DateTime) (c : FileContent) : Nat → FS → Except Exc FS
  | 0, fs => .ok fs
  | n + 1, fs => (add fs d c).bind (iterAdd d c n)

/-- `add` once per clock reading, in order. -/
def addAll (c : FileContent) : List DateTime → FS → Except Exc FS
  | [], fs => .ok fs
  | d :: rest, fs => (add fs d c).bind (addAll c rest)

/-- Observable effects accumulated by a replay run. -/
structure ReplayTrace where
  progress : List (Nat × Nat)
  submissions : List (String × Option Dict)
  cb_calls : List (Option APIRequestObj)

/-- Final state of a replay run. -/
structure ReplayOut where
  fs : FS
  trace : ReplayTrace
  result : Except Exc Unit

/-- The `for full_json_path in files` loop of `replay_all`.  `pos` indexes
the current file in the listing and drives the external submission oracle
`submitOk` (a successful `invoke()` returns, a failed one raises).  Note
the source never increments its `index` variable, so every `on_replay`
call reports index 0; `total` is `len(files)`.  Reading and parsing the
file happen before the `try` block: a missing file or malformed JSON
raises and halts the drain regardless of `on_failed_event`.  Inside the
guarded region: reconstruction via `init_api_request`, reconciliation and
submission; on failure, with no callback the exception propagates, with a
callback the boolean result decides deletion and the loop continues. -/
def replay_go (liveIds : List Int) (submitOk : Nat → Bool) (has_on_replay : Bool)
    (on_failed_event : Option (Option APIRequestObj → Bool)) (delete_on_success : Bool)
    (total : Nat) : List String → Nat → FS → ReplayTrace → ReplayOut
  | [], _, fs, tr => { fs := fs, trace := tr, result := .ok () }
  | name :: rest, pos, fs, tr =>
    let tr := if has_on_replay then { tr with progress := tr.progress ++ [(0, total)] } else tr
    match FS.lookup fs name with
    | none => { fs := fs, trace := tr, result := .error .osError }
    | some .malformed => { fs := fs, trace := tr, result := .error .jsonDecodeError }
    | some (.valid item) =>
      match parse_request item with
      | .error e =>
        match on_failed_event with
        | none => { fs := fs, trace := tr, result := .error e }
        | some f =>
          let tr := { tr with cb_calls := tr.cb_calls ++ [none] }
          let fs := if f none then FS.erase fs name else fs
          replay_go liveIds submitOk has_on_replay (some f) delete_on_success total rest (pos + 1) fs tr
      | .ok req0 =>
        let req := reconcile_timer liveIds req0
        let tr := { tr with submissions := tr.submissions ++ [(req.uri, req.payload)] }
        if submitOk pos then
          let fs := if delete_on_success then FS.erase fs name else fs
          replay_go liveIds submitOk has_on_replay on_failed_event delete_on_success total rest (pos + 1) fs tr
        else
          match on_failed_event with
          | none => { fs := fs, trace := tr, result := .error .requestFailed }
          | some f =>
            let tr := { tr with cb_calls := tr.cb_calls ++ [some req] }
            let fs := if f (some req) then FS.erase fs name else fs
            replay_go liveIds submitOk has_on_replay (some f) delete_on_success total rest (pos + 1) fs tr

/-- `OfflineEventQueue.replay_all`.  `liveIds` is the live timer id set
fetched once at the start of the drain (`GetAllTimersAPIRequest`, an
external query); the fetch is skipped entirely when the queue is empty. -/
def replay_all (liveIds : List Int) (submitOk : Nat → Bool) (has_on_replay : Bool)
    (on_failed_event : Option (Option APIRequestObj → Bool)) (delete_on_success : Bool)
    (fs : FS) : ReplayOut :=
  let files := get_json_files (FS.names fs)
  if files.isEmpty then { fs := fs, trace := ⟨[], [], []⟩, result := .ok () }
  else replay_go liveIds submitOk has_on_replay on_failed_event delete_on_success
    files.length files 0 fs ⟨[], [], []⟩

/-- One remote call issued by the timer component. -/
inductive RemoteCall where
  | getTimers (name : String)
  | createTimer (name : String)
  | deleteTimer (id : Option JsonVal)

/-- Responses of the remote service consumed by `Timer.start_or_resume`:
the `results` of the list-timers-by-name query as (id, start) pairs (the
remote schema's ids are integers and starts ISO strings), and the id a
create-timer request would be assigned. -/
structure RemoteTimersEnv where
  results : List (Int × String)
  createdId : Int

/-- `TimerAPIRequest.get_timer_name`. -/
def get_timer_name (name : String) : String := "babypod-" ++ name

/-- The `for timer_result in timers["results"]` scan: keep the first
result with a strictly greater id than any seen so far. -/
def pickMax (results : List (Int × String)) : Option (Int × String) :=
  results.foldl
    (fun acc r => match acc with
      | none => some r
      | some m => if r.1 > m.1 then some r else acc)
    none

/-- `Timer.start_or_resume`: offline it does nothing; online it queries
timers by name, adopts the max-id match (id and start time), or creates a
new remote timer and adopts its assigned id.  Returns the updated timer
and the remote calls issued. -/
def Timer.start_or_resume (t : Timer) (env : RemoteTimersEnv) : Timer × List RemoteCall :=
  if t.offline then (t, [])
  else
    match pickMax env.results with
    | some m =>
      ({ t with timer_id := some (.int m.1), started_at := some m.2 },
       [RemoteCall.getTimers (get_timer_name t.name)])
    | none =>
      ({ t with timer_id := some (.int env.createdId) },
       [RemoteCall.getTimers (get_timer_name t.name), RemoteCall.createTimer (get_timer_name t.name)])

/-- The offline branch of `Flow.start_or_resume_timer` (flow.py lines
532-540): construct a Local-mode timer, stamp `started_at` from the RTC
immediately, then call `start_or_resume`. -/
def start_or_resume_timer_offline (timer_name : String) (now : String)
    (env : RemoteTimersEnv) : Timer × List RemoteCall :=
  let timer : Timer :=
    { name := timer_name, offline := true, started_at := none, ended_at := none,
      timer_id := none, has_rtc := true }
  let timer := { timer with started_at := some now }
  Timer.start_or_resume timer env

/-- A timer reference as the spec's tagged union: a remote timer id, or a
local start/end timestamp pair.  `Timer.from_payload` reconstructs exactly
these two shapes. -/
inductive TimerRef where
  | remote (id : Int)
  | loc (startAt endAt : String)
deriving DecidableEq

/-- A `RemoteOperationDescriptor`: one pending remote write per operation
kind, with the fields each request constructor takes. -/
inductive Descriptor where
  | change (child_id : Int) (is_wet is_solid : Bool)
  | pumping (child_id : Int) (amount : JsonVal)
  | tummyTime (child_id : Int) (timer : TimerRef)
  | feeding (child_id : Int) (food_type method : String) (timer : TimerRef)
  | sleep (child_id : Int) (timer : TimerRef)

/-- Realize a timer reference as a `Timer` object (the shape
`Timer.from_payload` produces, and the only fields `as_payload` reads). -/
def TimerRef.toTimer (ref : TimerRef) (name : String) : Timer :=
  match ref with
  | .remote id =>
    { name := name, offline := false, started_at := none, ended_at := none,
      timer_id := some (.int id), has_rtc := false }
  | .loc s e =>
    { name := name, offline := true, started_at := some s, ended_at := some e,
      timer_id := none, has_rtc := false }

/-- Dynamic dispatch of `request.serialize_to_json()` over the five
concrete classes (the base class raises `RuntimeError`). -/
def serialize_to_json (r : APIRequestObj) (now : String) : Except Exc JsonVal :=
  if r.className = "PostChangeAPIRequest" then PostChangeAPIRequest.serialize_to_json r
  else if r.className = "PostPumpingAPIRequest" then PostPumpingAPIRequest.serialize_to_json r
  else if r.className = "PostTummyTimeAPIRequest" then PostTummyTimeAPIRequest.serialize_to_json r now
  else if r.className = "PostFeedingAPIRequest" then PostFeedingAPIRequest.serialize_to_json r now
  else if r.className = "PostSleepAPIRequest" then PostSleepAPIRequest.serialize_to_json r now
  else .error (.runtimeError "not supported offline")

/-- The record body `OfflineEventQueue.add` persists:
`{"type": type(request).__name__, "payload": request.serialize_to_json()}`. -/
def add_record (r : APIRequestObj) (now : String) : Except Exc JsonVal :=
  (serialize_to_json r now).map (fun p => .obj [("type", .str r.className), ("payload", p)])

/-- Build the concrete request a descriptor denotes, through the class
constructors.  The `now` dummy is never read: concretized timers carry no
RTC and a complete fragment. -/
def descToRequest (d : Descriptor) : Except Exc APIRequestObj :=
  match d with
  | .change c w s => .ok (PostChangeAPIRequest.init (.int c) (.bool w) (.bool s))
  | .pumping c a => .ok (PostPumpingAPIRequest.init (.int c) a)
  | .tummyTime c ref => PostTummyTimeAPIRequest.init (.int c) (some (ref.toTimer "tummy_time")) ""
  | .feeding c ft m ref =>
    PostFeedingAPIRequest.init (.int c) (.str ft) (.str m) (some (ref.toTimer "feeding")) ""
  | .sleep c ref => PostSleepAPIRequest.init (.int c) (some (ref.toTimer "sleep")) ""

/-- Serialize a descriptor to the durable queue record, the way `add`
writes it. -/
def serializeDescriptor (d : Descriptor) : Except Exc JsonVal :=
  (descToRequest d).bind (fun req => add_record req "")

/-- Read a timer reference back off a reconstructed `Timer`. -/
def timerRefOfTimer (t : Option Timer) : Except Exc TimerRef :=
  match t with
  | some tm =>
    match tm.timer_id with
    | some (.int id) => .ok (.remote id)
    | some _ => .error .typeError
    | none =>
      match tm.started_at, tm.ended_at with
      | some s, some e => .ok (.loc s e)
      | _, _ => .error .typeError
  | none => .error .typeError

/-- Read the descriptor back off a reconstructed request object. -/
def abstractDescriptor (r : APIRequestObj) : Except Exc Descriptor :=
  if r.className = "PostChangeAPIRequest" then do
    let p ← payloadDict r
    let c ← dictGet p "child"
    let w ← dictGet p "wet"
    let s ← dictGet p "solid"
    match c, w, s with
    | .int ci, .bool wb, .bool sb => .ok (.change ci wb sb)
    | _, _, _ => .error .typeError
  else if r.className = "PostPumpingAPIRequest" then do
    let p ← payloadDict r
    let c ← dictGet p "child"
    let a ← dictGet p "amount"
    match c with
    | .int ci => .ok (.pumping ci a)
    | _ => .error .typeError
  else if r.className = "PostTummyTimeAPIRequest" then do
    let p ← payloadDict r
    let c ← dictGet p "child"
    let ref ← timerRefOfTimer r.timer
    match c with
    | .int ci => .ok (.tummyTime ci ref)
    | _ => .error .typeError
  else if r.className = "PostFeedingAPIRequest" then do
    let p ← payloadDict r
    let c ← dictGet p "child"
    let ft ← dictGet p "type"
    let m ← dictGet p "method"
    let ref ← timerRefOfTimer r.timer
    match c, ft, m with
    | .int ci, .str fts, .str ms => .ok (.feeding ci fts ms ref)
    | _, _, _ => .error .typeError
  else if r.className = "PostSleepAPIRequest" then do
    let p ← payloadDict r
    let c ← dictGet p "child"
    let ref ← timerRefOfTimer r.timer
    match c with
    | .int ci => .ok (.sleep ci ref)
    | _ => .error .typeError
  else .error .typeError

/-- Deserialize a queue record back to a descriptor: read `type` and
`payload` and run the queue's dispatcher, then read the descriptor off the
reconstructed request. -/
def deserializeDescriptor (record : JsonVal) : Except Exc Descriptor := do
  let t ← record.getKey "type"
  let p ← record.getKey "payload"
  let req ← init_api_request t p
  abstractDescriptor req

/-! ## Order infrastructure for filename sorting -/

theorem charsLe_cons_iff (a b : Char) (as bs : List Char) :
    charsLe (a :: as) (b :: bs) = true ↔ a < b ∨ (a = b ∧ charsLe as bs = true) := by
  simp only [charsLe]
  rcases lt_trichotomy a b with h | h | h
  · simp [h, not_lt_of_gt h]
  · simp [h, lt_irrefl]
  · simp [h, not_lt_of_gt h, ne_of_gt h]

theorem charsLe_refl (l : List Char) : charsLe l l = true := by
  induction l with
  | nil => rfl
  | cons a as ih => rw [charsLe_cons_iff]; exact Or.inr ⟨rfl, ih⟩

theorem charsLe_trans (a b c : List Char) (h1 : charsLe a b = true) (h2 : charsLe b c = true) :
    charsLe a c = true := by
  induction a generalizing b c with
  | nil => cases c <;> rfl
  | cons x xs ih =>
    cases b with
    | nil => simp [charsLe] at h1
    | cons y ys =>
      cases c with
      | nil => simp [charsLe] at h2
      | cons z zs =>
        rw [charsLe_cons_iff] at h1 h2 ⊢
        rcases h1 with h1 | ⟨h1e, h1t⟩
        · rcases h2 with h2 | ⟨h2e, h2t⟩
          · exact Or.inl (lt_trans h1 h2)
          · exact Or.inl (h2e ▸ h1)
        · rcases h2 with h2 | ⟨h2e, h2t⟩
          · exact Or.inl (h1e ▸ h2)
          · exact Or.inr ⟨h1e.trans h2e, ih ys zs h1t h2t⟩

theorem charsLe_total (a b : List Char) : charsLe a b = true ∨ charsLe b a = true := by
  induction a generalizing b with
  | nil => exact Or.inl rfl
  | cons x xs ih =>
    cases b with
    | nil => exact Or.inr rfl
    | cons y ys =>
      rcases lt_trichotomy x y with h | h | h
      · exact Or.inl ((charsLe_cons_iff _ _ _ _).mpr (Or.inl h))
      · rcases ih ys with h' | h'
        · exact Or.inl ((charsLe_cons_iff _ _ _ _).mpr (Or.inr ⟨h, h'⟩))
        · exact Or.inr ((charsLe_cons_iff _ _ _ _).mpr (Or.inr ⟨h.symm, h'⟩))
      · exact Or.inr ((charsLe_cons_iff _ _ _ _).mpr (Or.inl h))

theorem charsLe_antisymm (a b : List Char) (h1 : charsLe a b = true) (h2 : charsLe b a = true) :
    a = b := by
  induction a generalizing b with
  | nil => cases b with
    | nil => rfl
    | cons y ys => simp [charsLe] at h2
  | cons x xs ih =>
    cases b with
    | nil => simp [charsLe] at h1
    | cons y ys =>
      rw [charsLe_cons_iff] at h1 h2
      rcases h1 with h1 | ⟨h1e, h1t⟩
      · rcases h2 with h2 | ⟨h2e, h2t⟩
        · exact absurd h2 (lt_asymm h1)
        · exact absurd h1 (h2e ▸ lt_irrefl y)
      · rcases h2 with h2 | ⟨h2e, h2t⟩
        · exact absurd h2 (h1e ▸ lt_irrefl x)
        · exact h1e ▸ congrArg (x :: ·) (ih ys h1t h2t)

instance : IsTrans String fileLe :=
  ⟨fun a b c h1 h2 => charsLe_trans a.data b.data c.data h1 h2⟩

instance : IsTotal String fileLe :=
  ⟨fun a b => charsLe_total a.data b.data⟩

instance : IsAntisymm String fileLe :=
  ⟨fun a b h1 h2 => by
    have h := charsLe_antisymm a.data b.data h1 h2
    cases a; cases b; exact congrArg String.mk h⟩

instance (a b : DateTime) : Decidable (DateTime.lt a b) := by
  unfold DateTime.lt; infer_instance

theorem lex_ne (l1 l2 : List Char) (h : List.Lex (· < ·) l1 l2) : l1 ≠ l2 := by
  induction h with
  | nil => exact fun heq => List.noConfusion heq
  | rel h => exact fun heq => absurd (List.head_eq_of_cons_eq heq ▸ h) (lt_irrefl _)
  | cons _ ih => exact fun heq => ih (List.tail_eq_of_cons_eq heq)

theorem strLt_ne (a b : String) (h : strLt a b) : a ≠ b :=
  fun heq => lex_ne a.data b.data h (by rw [heq])

theorem charsLe_of_lex (l1 l2 : List Char) (h : List.Lex (· < ·) l1 l2) :
    charsLe l1 l2 = true := by
  induction h with
  | nil => rfl
  | rel h => rw [charsLe_cons_iff]; exact Or.inl h
  | cons _ ih => rw [charsLe_cons_iff]; exact Or.inr ⟨rfl, ih⟩

theorem fileLe_of_strLt (a b : String) (h : strLt a b) : fileLe a b :=
  charsLe_of_lex a.data b.data h

theorem lex_append_left_of_lex (r : Char → Char → Prop) (xs : List Char) :
    ∀ (ys as bs : List Char), xs.length = ys.length → List.Lex r xs ys →
    List.Lex r (xs ++ as) (ys ++ bs) := by
  induction xs with
  | nil =>
    intro ys as bs hlen h
    have : ys = [] := by cases ys with
      | nil => rfl
      | cons y yt => simp at hlen
    subst this; cases h
  | cons x xt ih =>
    intro ys as bs hlen h
    cases ys with
    | nil => simp at hlen
    | cons y yt =>
      cases h with
      | rel h => exact List.Lex.rel h
      | cons h => exact List.Lex.cons (ih yt as bs (by simpa using hlen) h)

theorem lex_append_same_left (r : Char → Char → Prop) (xs as bs : List Char)
    (h : List.Lex r as bs) : List.Lex r (xs ++ as) (xs ++ bs) := by
  induction xs with
  | nil => exact h
  | cons x xt ih => exact List.Lex.cons ih

theorem padChars_length (w n : Nat) : (padChars w n).length = w := by
  induction w generalizing n with
  | zero => rfl
  | succ w ih => simp [padChars, ih]

theorem digitChar_lt (d1 d2 : Nat) (h1 : d1 < 10) (h2 : d2 < 10) (h : d1 < d2) :
    Nat.digitChar d1 < Nat.digitChar d2 := by
  have key : ∀ a b : Fin 10, a.val < b.val → Nat.digitChar a.val < Nat.digitChar b.val := by decide
  exact key ⟨d1, h1⟩ ⟨d2, h2⟩ h

theorem padChars_lex (w : Nat) : ∀ n m : Nat, n < 10 ^ w → m < 10 ^ w → n < m →
    List.Lex (· < ·) (padChars w n) (padChars w m) := by
  induction w with
  | zero => intro n m hn hm h; omega
  | succ w ih =>
    intro n m hn hm h
    have hq : n / 10 ≤ m / 10 := Nat.div_le_div_right (le_of_lt h)
    have hnq : n / 10 < 10 ^ w := by
      rw [Nat.div_lt_iff_lt_mul (by norm_num)]
      calc n < 10 ^ (w + 1) := hn
        _ = 10 ^ w * 10 := pow_succ 10 w
    have hmq : m / 10 < 10 ^ w := by
      rw [Nat.div_lt_iff_lt_mul (by norm_num)]
      calc m < 10 ^ (w + 1) := hm
        _ = 10 ^ w * 10 := pow_succ 10 w
    rcases lt_or_eq_of_le hq with hq' | hq'
    · exact lex_append_left_of_lex _ _ _ _ _
        (by rw [padChars_length, padChars_length]) (ih (n / 10) (m / 10) hnq hmq hq')
    · have hr : n % 10 < m % 10 := by
        have e1 := Nat.div_add_mod n 10
        have e2 := Nat.div_add_mod m 10
        omega
      show List.Lex (· < ·) (padChars w (n / 10) ++ [Nat.digitChar (n % 10)])
        (padChars w (m / 10) ++ [Nat.digitChar (m % 10)])
      rw [hq']
      exact lex_append_same_left _ _ _ _
        (List.Lex.rel (digitChar_lt _ _ (Nat.mod_lt n (by norm_num)) (Nat.mod_lt m (by norm_num)) hr))

theorem lex_pad_lt (w a b : Nat) (X Y : List Char) (ha : a < 10 ^ w) (hb : b < 10 ^ w)
    (hab : a < b) : List.Lex (· < ·) (padChars w a ++ X) (padChars w b ++ Y) :=
  lex_append_left_of_lex _ _ _ _ _ (by rw [padChars_length, padChars_length])
    (padChars_lex w a b ha hb hab)

theorem fmtD_lex (d1 d2 : DateTime) (h1 : d1.Valid) (h2 : d2.Valid) (h : DateTime.lt d1 d2) :
    List.Lex (· < ·) (fmtD d1) (fmtD d2) := by
  obtain ⟨hy1, hmo1, hd1, hh1, hmi1, hs1⟩ := h1
  obtain ⟨hy2, hmo2, hd2, hh2, hmi2, hs2⟩ := h2
  unfold fmtD
  rcases h with h | ⟨ey, h⟩
  · exact lex_pad_lt 4 _ _ _ _ (by norm_num [hy1]) (by norm_num [hy2]) h
  rw [ey]
  apply lex_append_same_left
  rcases h with h | ⟨emo, h⟩
  · exact lex_pad_lt 2 _ _ _ _ (by norm_num [hmo1]) (by norm_num [hmo2]) h
  rw [emo]
  apply lex_append_same_left
  rcases h with h | ⟨ed, h⟩
  · exact lex_pad_lt 2 _ _ _ _ (by norm_num [hd1]) (by norm_num [hd2]) h
  rw [ed]
  apply lex_append_same_left
  rcases h with h | ⟨eh, h⟩
  · exact lex_pad_lt 2 _ _ _ _ (by norm_num [hh1]) (by norm_num [hh2]) h
  rw [eh]
  apply lex_append_same_left
  rcases h with h | ⟨emi, h⟩
  · exact lex_pad_lt 2 _ _ _ _ (by norm_num [hmi1]) (by norm_num [hmi2]) h
  rw [emi]
  apply lex_append_same_left
  exact padChars_lex 2 _ _ (by norm_num [hs1]) (by norm_num [hs2]) h

theorem fmtD_length (d : DateTime) : (fmtD d).length = 14 := by
  simp [fmtD, padChars_length]

/-! ## C7: round-trip of the durable record format -/

/-- C7: for every operation kind in the closed enum (ChangeEvent,
PumpingEvent, TummyTimeEvent, FeedingEvent, SleepEvent) and every
descriptor of that kind, deserializing the serialized queue record yields
the original descriptor: `deserialize(serialize(d)) = d`. -/
theorem descriptor_round_trip (d : Descriptor) :
    (serializeDescriptor d).bind deserializeDescriptor = .ok d := by
  cases d with
  | change c w s => rfl
  | pumping c a => rfl
  | tummyTime c ref => cases ref <;> rfl
  | feeding c ft m ref => cases ref <;> rfl
  | sleep c ref => cases ref <;> rfl

/-! ## C8: Local-mode start_or_resume -/

/-- C8: a timer session created in Local (offline) mode has `started_at`
stamped from the clock source immediately, and `start_or_resume` issues no
remote call: no list-timers, create-timer or delete-timer request. -/
theorem local_mode_stamps_clock_no_remote_call (timer_name now : String)
    (env : RemoteTimersEnv) :
    (start_or_resume_timer_offline timer_name now env).1.started_at = some now ∧
    (start_or_resume_timer_offline timer_name now env).2 = [] :=
  ⟨rfl, rfl⟩

/-! ## C1: reconciliation of queued timer references -/

theorem containsKey_dictErase (p : Dict) (k : String) :
    containsKey (dictErase p k) k = false := by
  induction p with
  | nil => rfl
  | cons kv rest ih =>
    by_cases h : kv.1 == k <;>
      · simp only [containsKey, dictErase, List.filter_cons, h] at ih ⊢
        simp_all [containsKey, dictErase]

/-- C1: during replay, for a request payload holding a remote timer
reference: a reference to an id outside the live set fetched at the start
of the drain is deleted from the payload before submission; a reference to
a live id with stray `start`/`end` fields has those two fields deleted
before submission; a payload without a `timer` key is left untouched by
reconciliation and so is submitted unchanged. -/
theorem replay_reconciliation (liveIds : List Int) (r : APIRequestObj) (p : Dict)
    (hp : r.payload = some p) :
    (∀ tv, dictFind p "timer" = some tv → pyMemInt tv liveIds = false →
      (reconcile_timer liveIds r).payload = some (dictErase p "timer") ∧
      containsKey (dictErase p "timer") "timer" = false) ∧
    (∀ tv, dictFind p "timer" = some tv → pyMemInt tv liveIds = true →
      containsKey p "start" = true → containsKey p "end" = true →
      (reconcile_timer liveIds r).payload =
        some (dictErase (dictErase p "start") "end")) ∧
    (dictFind p "timer" = none → reconcile_timer liveIds r = r) := by
  refine ⟨?_, ?_, ?_⟩
  · intro tv htv hmem
    refine ⟨?_, containsKey_dictErase p "timer"⟩
    simp [reconcile_timer, hp, htv, hmem]
  · intro tv htv hmem hs he
    simp [reconcile_timer, hp, htv, hmem, hs, he]
  · intro htv
    simp [reconcile_timer, hp, htv]

theorem replay_reconciliation_witness :
    (reconcile_timer [5]
      { className := "PostFeedingAPIRequest", uri := "feedings",
        payload := some [("child", JsonVal.int 1), ("timer", JsonVal.int 7)],
        timer := none }).payload =
      some (dictErase [("child", JsonVal.int 1), ("timer", JsonVal.int 7)] "timer") :=
  ((replay_reconciliation [5] _ [("child", JsonVal.int 1), ("timer", JsonVal.int 7)]
    rfl).1 (JsonVal.int 7) rfl rfl).1

/-! ## C6: Remote-mode start_or_resume adopts the max-id match -/

theorem pickMax_go (rest : List (Int × String)) :
    ∀ (m : Int × String), ∃ m2,
      List.foldl (fun acc r => match acc with
        | none => some r
        | some mm => if r.1 > mm.1 then some r else acc) (some m) rest = some m2 ∧
      (m2 = m ∨ m2 ∈ rest) ∧ m.1 ≤ m2.1 ∧ ∀ r ∈ rest, r.1 ≤ m2.1 := by
  induction rest with
  | nil => intro m; exact ⟨m, rfl, Or.inl rfl, le_refl _, by simp⟩
  | cons r tail ih =>
    intro m
    simp only [List.foldl_cons]
    by_cases hr : r.1 > m.1
    · obtain ⟨m2, heq, hmem, hle, hall⟩ := ih r
      refine ⟨m2, by rw [if_pos hr]; exact heq, ?_, le_trans (le_of_lt hr) hle, ?_⟩
      · rcases hmem with h | h
        · exact Or.inr (h ▸ List.mem_cons_self r tail)
        · exact Or.inr (List.mem_cons_of_mem r h)
      · intro x hx
        rcases List.mem_cons.mp hx with h | h
        · exact h ▸ hle
        · exact hall x h
    · obtain ⟨m2, heq, hmem, hle, hall⟩ := ih m
      refine ⟨m2, by rw [if_neg hr]; exact heq, ?_, hle, ?_⟩
      · rcases hmem with h | h
        · exact Or.inl h
        · exact Or.inr (List.mem_cons_of_mem r h)
      · intro x hx
        rcases List.mem_cons.mp hx with h | h
        · exact h ▸ le_trans (le_of_not_gt hr) hle
        · exact hall x h

theorem pickMax_some (l : List (Int × String)) (m : Int × String)
    (h : pickMax l = some m) : m ∈ l ∧ ∀ r ∈ l, r.1 ≤ m.1 := by
  cases l with
  | nil => exact absurd h (by simp [pickMax])
  | cons r rest =>
    have hgo := pickMax_go rest r
    obtain ⟨m2, heq, hmem, hle, hall⟩ := hgo
    have hm2 : m2 = m := by
      have : pickMax (r :: rest) = some m2 := by
        simp only [pickMax, List.foldl_cons]
        exact heq
      rw [h] at this
      exact (Option.some.inj this).symm
    subst hm2
    refine ⟨?_, ?_⟩
    · rcases hmem with h' | h'
      · exact h' ▸ List.mem_cons_self r rest
      · exact List.mem_cons_of_mem r h'
    · intro x hx
      rcases List.mem_cons.mp hx with h' | h'
      · exact h' ▸ hle
      · exact hall x h'

theorem pickMax_of_ne_nil (l : List (Int × String)) (h : l ≠ []) :
    ∃ m, pickMax l = some m := by
  cases l with
  | nil => exact absurd rfl h
  | cons r rest =>
    obtain ⟨m2, heq, _, _, _⟩ := pickMax_go rest r
    exact ⟨m2, by simp only [pickMax, List.foldl_cons]; exact heq⟩

/-- C6: in Remote (online) mode, when the list-timers-by-name query
returns a non-empty result set, `start_or_resume` adopts the id and start
time of a result carrying the greatest id; when it returns no results, it
issues a create-timer request and adopts the id the remote service
assigned. -/
theorem remote_mode_adopts_max_id (t : Timer) (env : RemoteTimersEnv)
    (hon : t.offline = false) :
    (env.results ≠ [] → ∃ m, m ∈ env.results ∧ (∀ r ∈ env.results, r.1 ≤ m.1) ∧
      (Timer.start_or_resume t env).1.timer_id = some (.int m.1) ∧
      (Timer.start_or_resume t env).1.started_at = some m.2 ∧
      (Timer.start_or_resume t env).2 = [RemoteCall.getTimers (get_timer_name t.name)]) ∧
    (env.results = [] →
      (Timer.start_or_resume t env).1.timer_id = some (.int env.createdId) ∧
      (Timer.start_or_resume t env).2 =
        [RemoteCall.getTimers (get_timer_name t.name),
         RemoteCall.createTimer (get_timer_name t.name)]) := by
  constructor
  · intro hne
    obtain ⟨m, hm⟩ := pickMax_of_ne_nil env.results hne
    obtain ⟨hmem, hmax⟩ := pickMax_some env.results m hm
    refine ⟨m, hmem, hmax, ?_, ?_, ?_⟩ <;>
      simp [Timer.start_or_resume, hon, hm]
  · intro hnil
    have hm : pickMax env.results = none := by rw [hnil]; rfl
    constructor <;> simp [Timer.start_or_resume, hon, hm]

theorem remote_mode_adopts_max_id_witness :
    ∃ m, m ∈ (RemoteTimersEnv.mk [(3, "s3"), (9, "s9")] 42).results ∧
      (∀ r ∈ (RemoteTimersEnv.mk [(3, "s3"), (9, "s9")] 42).results, r.1 ≤ m.1) ∧
      (Timer.start_or_resume (Timer.mk "feeding" false none none none false)
        (RemoteTimersEnv.mk [(3, "s3"), (9, "s9")] 42)).1.timer_id = some (.int m.1) ∧
      (Timer.start_or_resume (Timer.mk "feeding" false none none none false)
        (RemoteTimersEnv.mk [(3, "s3"), (9, "s9")] 42)).1.started_at = some m.2 ∧
      (Timer.start_or_resume (Timer.mk "feeding" false none none none false)
        (RemoteTimersEnv.mk [(3, "s3"), (9, "s9")] 42)).2 =
        [RemoteCall.getTimers (get_timer_name (Timer.mk "feeding" false none none none false).name)] :=
  (remote_mode_adopts_max_id (Timer.mk "feeding" false none none none false)
    (RemoteTimersEnv.mk [(3, "s3"), (9, "s9")] 42) rfl).1 (by simp)

/-! ## C4: unknown operation kinds during replay -/

/-- C4 (amended): a queued record whose type string is not one of the five
recognized operation kinds makes `init_api_request` raise the
unknown-operation-kind `ValueError` naming the kind, and the record is
never submitted.  With no `on_failed_event` callback the error propagates
and the drain halts with the queue untouched; but the raise happens inside
the guarded region, so a supplied callback receives `None` and its boolean
result decides whether the record is deleted, the drain continuing either
way. -/
theorem unknown_kind_replay
    (liveIds : List Int) (submitOk : Nat → Bool) (hor dos : Bool) (total : Nat)
    (name : String) (rest : List String) (pos : Nat) (fs : FS) (tr : ReplayTrace)
    (item pv : JsonVal) (s : String)
    (hlook : FS.lookup fs name = some (.valid item))
    (htype : item.getKey "type" = .ok (.str s))
    (hpay : item.getKey "payload" = .ok pv)
    (h1 : s ≠ "PostFeedingAPIRequest") (h2 : s ≠ "PostChangeAPIRequest")
    (h3 : s ≠ "PostPumpingAPIRequest") (h4 : s ≠ "PostTummyTimeAPIRequest")
    (h5 : s ≠ "PostSleepAPIRequest") :
    parse_request item = .error (.valueError ("Dont know how to deserialize a " ++ s)) ∧
    (replay_go liveIds submitOk hor none dos total (name :: rest) pos fs tr =
      { fs := fs,
        trace := if hor then { tr with progress := tr.progress ++ [(0, total)] } else tr,
        result := .error (.valueError ("Dont know how to deserialize a " ++ s)) }) ∧
    (∀ f : Option APIRequestObj → Bool,
      replay_go liveIds submitOk hor (some f) dos total (name :: rest) pos fs tr =
        replay_go liveIds submitOk hor (some f) dos total rest (pos + 1)
          (if f none then FS.erase fs name else fs)
          (let tr1 := if hor then { tr with progress := tr.progress ++ [(0, total)] } else tr
           { tr1 with cb_calls := tr1.cb_calls ++ [none] })) := by
  have hstep : parse_request item = init_api_request (.str s) pv := by
    unfold parse_request
    rw [htype, hpay]
    rfl
  have hparse : parse_request item =
      .error (.valueError ("Dont know how to deserialize a " ++ s)) := by
    rw [hstep]
    simp only [init_api_request]
    rw [if_neg h1, if_neg h2, if_neg h3, if_neg h4, if_neg h5]
  refine ⟨hparse, ?_, ?_⟩
  · simp only [replay_go, hlook, hparse]
  · intro f
    simp only [replay_go, hlook, hparse]

/-- C4 counterexample to the claim as stated: a record of unknown kind
`FooAPIRequest`, replayed with an `on_failed_event` callback returning
`True`, does not fail fatally — the drain finishes successfully, the
record is deleted, and nothing was submitted: the unknown-kind failure is
converted into a continue-and-delete decision by the callback. -/
theorem unknown_kind_cb_deletes_counterexample :
    (replay_all [] (fun _ => true) false (some (fun _ => true)) true
      [("a.json", FileContent.valid (.obj [("type", .str "FooAPIRequest"),
        ("payload", .obj [])]))]).result = .ok () ∧
    (replay_all [] (fun _ => true) false (some (fun _ => true)) true
      [("a.json", FileContent.valid (.obj [("type", .str "FooAPIRequest"),
        ("payload", .obj [])]))]).fs = [] ∧
    (replay_all [] (fun _ => true) false (some (fun _ => true)) true
      [("a.json", FileContent.valid (.obj [("type", .str "FooAPIRequest"),
        ("payload", .obj [])]))]).trace.submissions = [] :=
  ⟨rfl, rfl, rfl⟩

/-! ## C10: the on_failed_event contract inside the guarded region -/

/-- C10: when a replayed entry fails inside the guarded region before a
request object could be reconstructed (the type-dispatch raised), the
callback is invoked with `None`; when it fails at submission, the callback
is invoked with the reconciled request.  In both failure cases the
callback's boolean return value alone decides whether the entry's record
is deleted (`true`) or kept (`false`), and the drain continues with the
next entry. -/
theorem callback_failure_contract
    (liveIds : List Int) (submitOk : Nat → Bool) (hor dos : Bool) (total : Nat)
    (name : String) (rest : List String) (pos : Nat) (fs : FS) (tr : ReplayTrace)
    (f : Option APIRequestObj → Bool) :
    (∀ item e, FS.lookup fs name = some (.valid item) → parse_request item = .error e →
      replay_go liveIds submitOk hor (some f) dos total (name :: rest) pos fs tr =
        replay_go liveIds submitOk hor (some f) dos total rest (pos + 1)
          (if f none then FS.erase fs name else fs)
          (let tr1 := if hor then { tr with progress := tr.progress ++ [(0, total)] } else tr
           { tr1 with cb_calls := tr1.cb_calls ++ [none] })) ∧
    (∀ item req, FS.lookup fs name = some (.valid item) → parse_request item = .ok req →
      submitOk pos = false →
      replay_go liveIds submitOk hor (some f) dos total (name :: rest) pos fs tr =
        replay_go liveIds submitOk hor (some f) dos total rest (pos + 1)
          (if f (some (reconcile_timer liveIds req)) then FS.erase fs name else fs)
          (let tr1 := if hor then { tr with progress := tr.progress ++ [(0, total)] } else tr
           let tr2 := { tr1 with submissions := tr1.submissions ++
             [((reconcile_timer liveIds req).uri, (reconcile_timer liveIds req).payload)] }
           { tr2 with cb_calls := tr2.cb_calls ++ [some (reconcile_timer liveIds req)] })) := by
  constructor
  · intro item e hlook hparse
    simp only [replay_go, hlook, hparse]
  · intro item req hlook hparse hsub
    simp only [replay_go, hlook, hparse, hsub]
    rw [if_neg Bool.false_ne_true]

theorem unknown_kind_replay_witness :
    replay_go [] (fun _ => true) false none true 1 ["a.json"] 0
      [("a.json", FileContent.valid (.obj [("type", JsonVal.str "FooAPIRequest"),
        ("payload", JsonVal.obj [])]))] (ReplayTrace.mk [] [] []) =
    ReplayOut.mk
      [("a.json", FileContent.valid (.obj [("type", JsonVal.str "FooAPIRequest"),
        ("payload", JsonVal.obj [])]))]
      (ReplayTrace.mk [] [] [])
      (.error (.valueError ("Dont know how to deserialize a " ++ "FooAPIRequest"))) :=
  (unknown_kind_replay [] (fun _ => true) false true 1 "a.json" [] 0
    [("a.json", FileContent.valid (.obj [("type", JsonVal.str "FooAPIRequest"),
      ("payload", JsonVal.obj [])]))] (ReplayTrace.mk [] [] [])
    (.obj [("type", JsonVal.str "FooAPIRequest"), ("payload", JsonVal.obj [])])
    (JsonVal.obj []) "FooAPIRequest" rfl rfl rfl
    (by decide) (by decide) (by decide) (by decide) (by decide)).2.1

theorem callback_failure_contract_witness :
    replay_go [] (fun _ => true) false (some (fun _ => false)) true 1 ["a.json"] 0
      [("a.json", FileContent.valid (.obj [("type", JsonVal.str "FooAPIRequest"),
        ("payload", JsonVal.obj [])]))] (ReplayTrace.mk [] [] []) =
    replay_go [] (fun _ => true) false (some (fun _ => false)) true 1 [] 1
      [("a.json", FileContent.valid (.obj [("type", JsonVal.str "FooAPIRequest"),
        ("payload", JsonVal.obj [])]))] (ReplayTrace.mk [] [] [none]) :=
  (callback_failure_contract [] (fun _ => true) false true 1 "a.json" [] 0
    [("a.json", FileContent.valid (.obj [("type", JsonVal.str "FooAPIRequest"),
      ("payload", JsonVal.obj [])]))] (ReplayTrace.mk [] [] []) (fun _ => false)).1
    (.obj [("type", JsonVal.str "FooAPIRequest"), ("payload", JsonVal.obj [])])
    (.valueError ("Dont know how to deserialize a " ++ "FooAPIRequest")) rfl rfl

/-! ## Filesystem lemmas for the replay loop -/

theorem FS.lookup_filter_keep (fs : FS) (p : String → Bool) (nm : String) (hp : p nm = true) :
    FS.lookup (fs.filter (fun kv => p kv.1)) nm = FS.lookup fs nm := by
  induction fs with
  | nil => rfl
  | cons kv rest ih =>
    by_cases h : kv.1 == nm
    · have hkv : p kv.1 = true := by rw [eq_of_beq h]; exact hp
      simp [FS.lookup, List.filter_cons, hkv, List.find?_cons, h]
    · by_cases h2 : p kv.1 <;>
        simp_all [FS.lookup, List.filter_cons, List.find?_cons]

theorem FS.lookup_filter_drop (fs : FS) (p : String → Bool) (nm : String) (hp : p nm = false) :
    FS.lookup (fs.filter (fun kv => p kv.1)) nm = none := by
  induction fs with
  | nil => rfl
  | cons kv rest ih =>
    by_cases h : kv.1 == nm
    · have hkv : p kv.1 = false := by rw [eq_of_beq h]; exact hp
      simp_all [FS.lookup, List.filter_cons]
      exact ih
    · by_cases h2 : p kv.1
      · simp_all [FS.lookup, List.filter_cons, List.find?_cons]
        exact ih
      · simp_all [FS.lookup, List.filter_cons, List.find?_cons]
        exact ih

theorem FS.lookup_erase_ne (fs : FS) (nm other : String) (h : nm ≠ other) :
    FS.lookup (FS.erase fs other) nm = FS.lookup fs nm := by
  have hp : (!(nm == other)) = true := by
    simp only [Bool.not_eq_eq_eq_not, Bool.not_true, beq_eq_false_iff_ne, ne_eq]
    exact h
  exact FS.lookup_filter_keep fs (fun s => !(s == other)) nm hp

theorem FS.names_filter (fs : FS) (p : String → Bool) :
    FS.names (fs.filter (fun kv => p kv.1)) = (FS.names fs).filter p := by
  induction fs with
  | nil => rfl
  | cons kv rest ih =>
    by_cases h : p kv.1 <;> simp_all [FS.names, List.filter_cons]

/-- Processing a prefix of `k` entries that all reconstruct and submit
successfully (with `delete_on_success = true`) deletes exactly those `k`
records, advances the loop to the remaining listing, and makes no
`on_failed_event` call. -/
theorem replay_go_front (liveIds : List Int) (submitOk : Nat → Bool) (hor : Bool)
    (cb : Option (Option APIRequestObj → Bool)) (total : Nat) :
    ∀ (k : Nat) (l : List String) (pos : Nat) (fs : FS) (tr : ReplayTrace),
      k ≤ l.length → l.Nodup →
      (∀ nm ∈ l.take k, ∃ item req, FS.lookup fs nm = some (.valid item) ∧
        parse_request item = .ok req) →
      (∀ i, i < k → submitOk (pos + i) = true) →
      ∃ tr2 : ReplayTrace,
        replay_go liveIds submitOk hor cb true total l pos fs tr =
          replay_go liveIds submitOk hor cb true total (l.drop k) (pos + k)
            (fs.filter (fun kv => !((l.take k).contains kv.1))) tr2 ∧
        tr2.cb_calls = tr.cb_calls := by
  intro k
  induction k with
  | zero =>
    intro l pos fs tr _ _ _ _
    refine ⟨tr, ?_, rfl⟩
    simp
  | succ k ih =>
    intro l pos fs tr hk hnd hgood hsub
    cases l with
    | nil => simp at hk
    | cons nm rest =>
      obtain ⟨item, req, hlook, hparse⟩ := hgood nm (by simp [List.take_succ_cons])
      have hsub0 : submitOk pos = true := by
        have := hsub 0 (Nat.succ_pos k); simpa using this
      have hnm_rest : nm ∉ rest := (List.nodup_cons.mp hnd).1
      have hnd_rest : rest.Nodup := (List.nodup_cons.mp hnd).2
      obtain ⟨tr2, heq2, hcb2⟩ := ih rest (pos + 1) (FS.erase fs nm)
        (let trP := if hor then { tr with progress := tr.progress ++ [(0, total)] } else tr
         { trP with submissions := trP.submissions ++
           [((reconcile_timer liveIds req).uri, (reconcile_timer liveIds req).payload)] })
        (by simpa using Nat.succ_le_succ_iff.mp hk) hnd_rest
        (by
          intro nm2 hnm2
          have hne : nm2 ≠ nm := by
            intro he
            exact hnm_rest (he ▸ List.take_subset k rest hnm2)
          obtain ⟨item2, req2, hl2, hp2⟩ := hgood nm2
            (by simp only [List.take_succ_cons]; exact List.mem_cons_of_mem nm hnm2)
          exact ⟨item2, req2, by rw [FS.lookup_erase_ne fs nm2 nm hne]; exact hl2, hp2⟩)
        (by
          intro i hi
          have h := hsub (i + 1) (Nat.succ_lt_succ hi)
          rw [show pos + 1 + i = pos + (i + 1) by omega]
          exact h)
      refine ⟨tr2, ?_, by rw [hcb2]; cases hor <;> rfl⟩
      have hmain : replay_go liveIds submitOk hor cb true total (nm :: rest) pos fs tr =
          replay_go liveIds submitOk hor cb true total rest (pos + 1) (FS.erase fs nm)
            (let trP := if hor then { tr with progress := tr.progress ++ [(0, total)] } else tr
             { trP with submissions := trP.submissions ++
               [((reconcile_timer liveIds req).uri, (reconcile_timer liveIds req).payload)] }) := by
        simp only [replay_go, hlook, hparse, hsub0, if_pos]
      rw [hmain, heq2]
      have hfil : (FS.erase fs nm).filter (fun kv => !((rest.take k).contains kv.1)) =
          fs.filter (fun kv => !((( nm :: rest).take (k + 1)).contains kv.1)) := by
        show (fs.filter _).filter _ = _
        rw [List.filter_filter]
        apply List.filter_congr
        intro kv _
        simp only [List.take_succ_cons, List.contains_cons]
        cases h1 : kv.1 == nm <;> cases h2 : (rest.take k).contains kv.1 <;> simp [h1, h2]
      rw [hfil, show pos + 1 + k = pos + (k + 1) by omega]
      rfl

theorem listing_perm (ns : List String) : (get_json_files ns).Perm ns :=
  List.perm_insertionSort fileLe ns

theorem listing_sorted (ns : List String) : List.Sorted fileLe (get_json_files ns) :=
  List.sorted_insertionSort fileLe ns

theorem sortFiles_eq_of_perm (m target : List String) (hperm : m.Perm target)
    (hs : List.Sorted fileLe target) : sortFiles m = target :=
  List.eq_of_perm_of_sorted ((List.perm_insertionSort fileLe m).trans hperm)
    (List.sorted_insertionSort fileLe m) hs

theorem getk_in_drop (l : List String) (k : Nat) (hk : k < l.length) :
    l.get ⟨k, hk⟩ ∈ l.drop k := by
  rw [List.drop_eq_getElem_cons hk, List.get_eq_getElem]
  exact List.mem_cons_self _ _

theorem getk_notin_take (l : List String) (k : Nat) (hk : k < l.length) (hnd : l.Nodup) :
    l.get ⟨k, hk⟩ ∉ l.take k := by
  intro hmem
  have hnd2 : (l.take k ++ l.drop k).Nodup := by
    rw [List.take_append_drop]; exact hnd
  exact (List.nodup_append.mp hnd2).2.2 hmem (getk_in_drop l k hk)


theorem contains_eq_true_of_mem (l : List String) (a : String) (h : a ∈ l) :
    l.contains a = true := by simpa using h

theorem contains_eq_false_of_not_mem (l : List String) (a : String) (h : a ∉ l) :
    l.contains a = false := by simpa using h

theorem get_mem_self (l : List String) (k : Nat) (hk : k < l.length) : l.get ⟨k, hk⟩ ∈ l := by
  rw [List.get_eq_getElem]; exact List.getElem_mem hk

theorem filter_append_not_contains (u v : List String) (hnd : (u ++ v).Nodup) :
    (u ++ v).filter (fun s => !(u.contains s)) = v := by
  rw [List.filter_append]
  have h1 : u.filter (fun s => !(u.contains s)) = [] :=
    List.filter_eq_nil_iff.mpr
      (fun a ha => by
        show ¬((!(u.contains a)) = true)
        rw [contains_eq_true_of_mem u a ha]
        decide)
  have h2 : v.filter (fun s => !(u.contains s)) = v :=
    List.filter_eq_self.mpr
      (fun a ha => by
        show (!(u.contains a)) = true
        rw [contains_eq_false_of_not_mem u a
          (fun hmem => (List.nodup_append.mp hnd).2.2 hmem ha)]
        rfl)
  rw [h1, h2, List.nil_append]

/-! ## C9: unparseable records halt the drain even with a callback -/

/-- C9: during `replay_all`, when the record at position `k` of the
listing is not parseable JSON (all earlier entries reconstructing and
submitting fine), the parse error propagates and the drain halts even
though an `on_failed_event` callback is supplied: the callback is never
invoked, because parsing happens outside the guarded region. -/
theorem parse_error_halts_despite_callback
    (liveIds : List Int) (submitOk : Nat → Bool) (hor : Bool)
    (f : Option APIRequestObj → Bool) (fs : FS) (k : Nat)
    (hnd : (FS.names fs).Nodup)
    (hk : k < (get_json_files (FS.names fs)).length)
    (hgood : ∀ nm ∈ (get_json_files (FS.names fs)).take k, ∃ item req,
      FS.lookup fs nm = some (.valid item) ∧ parse_request item = .ok req)
    (hsub : ∀ i, i < k → submitOk i = true)
    (hmal : FS.lookup fs ((get_json_files (FS.names fs)).get ⟨k, hk⟩) = some .malformed) :
    (replay_all liveIds submitOk hor (some f) true fs).result = .error .jsonDecodeError ∧
    (replay_all liveIds submitOk hor (some f) true fs).fs =
      fs.filter (fun kv => !(((get_json_files (FS.names fs)).take k).contains kv.1)) ∧
    (replay_all liveIds submitOk hor (some f) true fs).trace.cb_calls = [] := by
  have hndl : (get_json_files (FS.names fs)).Nodup := ((listing_perm (FS.names fs)).symm).nodup hnd
  have hlne : (get_json_files (FS.names fs)).isEmpty = false := by
    cases hl2 : get_json_files (FS.names fs) with
    | nil => rw [hl2] at hk; simp at hk
    | cons a as => rfl
  have hout : replay_all liveIds submitOk hor (some f) true fs =
      replay_go liveIds submitOk hor (some f) true
        (get_json_files (FS.names fs)).length (get_json_files (FS.names fs)) 0 fs ⟨[], [], []⟩ := by
    simp only [replay_all, hlne, Bool.false_eq_true, if_false]
  obtain ⟨tr2, heq, hcb⟩ := replay_go_front liveIds submitOk hor (some f)
    (get_json_files (FS.names fs)).length k (get_json_files (FS.names fs)) 0 fs ⟨[], [], []⟩
    (le_of_lt hk) hndl hgood (by intro i hi; simpa using hsub i hi)
  have hdropk : (get_json_files (FS.names fs)).drop k =
      (get_json_files (FS.names fs)).get ⟨k, hk⟩ :: (get_json_files (FS.names fs)).drop (k + 1) := by
    rw [List.drop_eq_getElem_cons hk, List.get_eq_getElem]
  have hcont : ((get_json_files (FS.names fs)).take k).contains
      ((get_json_files (FS.names fs)).get ⟨k, hk⟩) = false :=
    contains_eq_false_of_not_mem _ _ (getk_notin_take (get_json_files (FS.names fs)) k hk hndl)
  have hlookP : FS.lookup
      (fs.filter (fun kv => !(((get_json_files (FS.names fs)).take k).contains kv.1)))
      ((get_json_files (FS.names fs)).get ⟨k, hk⟩) = some .malformed :=
    (FS.lookup_filter_keep fs
      (fun s => !(((get_json_files (FS.names fs)).take k).contains s))
      ((get_json_files (FS.names fs)).get ⟨k, hk⟩)
      (by
        show (!(((get_json_files (FS.names fs)).take k).contains
          ((get_json_files (FS.names fs)).get ⟨k, hk⟩))) = true
        rw [hcont]
        rfl)).trans hmal
  rw [hout, heq]
  refine ⟨?_, ?_, ?_⟩
  · rw [hdropk]
    simp only [replay_go, hlookP]
  · rw [hdropk]
    simp only [replay_go, hlookP]
  · rw [hdropk]
    simp only [replay_go, hlookP]
    cases hor <;> simp [hcb]

/-! ## C3: a failed submission with no callback halts the drain -/

/-- C3: with no `on_failed_event` callback and `delete_on_success = true`,
when the submission of the `k`-th entry (in listing order) fails, the
failure propagates immediately and the drain halts: every entry before the
`k`-th has been deleted, while the `k`-th and all later entries remain in
the queue with their records unmodified, and a subsequent listing returns
exactly those remaining entries in their original order. -/
theorem replay_halt_no_callback
    (liveIds : List Int) (submitOk : Nat → Bool) (hor : Bool) (fs : FS) (k : Nat)
    (hnd : (FS.names fs).Nodup)
    (hk : k < (get_json_files (FS.names fs)).length)
    (hgood : ∀ nm ∈ get_json_files (FS.names fs), ∃ item req,
      FS.lookup fs nm = some (.valid item) ∧ parse_request item = .ok req)
    (hsub : ∀ i, i < k → submitOk i = true)
    (hfail : submitOk k = false) :
    (replay_all liveIds submitOk hor none true fs).result = .error .requestFailed ∧
    (replay_all liveIds submitOk hor none true fs).fs =
      fs.filter (fun kv => !(((get_json_files (FS.names fs)).take k).contains kv.1)) ∧
    (∀ nm ∈ (get_json_files (FS.names fs)).take k,
      FS.lookup (replay_all liveIds submitOk hor none true fs).fs nm = none) ∧
    (∀ nm ∈ (get_json_files (FS.names fs)).drop k,
      FS.lookup (replay_all liveIds submitOk hor none true fs).fs nm = FS.lookup fs nm) ∧
    get_json_files (FS.names (replay_all liveIds submitOk hor none true fs).fs) =
      (get_json_files (FS.names fs)).drop k := by
  have hndl : (get_json_files (FS.names fs)).Nodup := ((listing_perm (FS.names fs)).symm).nodup hnd
  have hlne : (get_json_files (FS.names fs)).isEmpty = false := by
    cases hl2 : get_json_files (FS.names fs) with
    | nil => rw [hl2] at hk; simp at hk
    | cons a as => rfl
  have hout : replay_all liveIds submitOk hor none true fs =
      replay_go liveIds submitOk hor none true
        (get_json_files (FS.names fs)).length (get_json_files (FS.names fs)) 0 fs ⟨[], [], []⟩ := by
    simp only [replay_all, hlne, Bool.false_eq_true, if_false]
  obtain ⟨tr2, heq, hcb⟩ := replay_go_front liveIds submitOk hor none
    (get_json_files (FS.names fs)).length k (get_json_files (FS.names fs)) 0 fs ⟨[], [], []⟩
    (le_of_lt hk) hndl (fun nm hnm => hgood nm (List.take_subset k _ hnm))
    (by intro i hi; simpa using hsub i hi)
  have hdropk : (get_json_files (FS.names fs)).drop k =
      (get_json_files (FS.names fs)).get ⟨k, hk⟩ :: (get_json_files (FS.names fs)).drop (k + 1) := by
    rw [List.drop_eq_getElem_cons hk, List.get_eq_getElem]
  have hcont : ((get_json_files (FS.names fs)).take k).contains
      ((get_json_files (FS.names fs)).get ⟨k, hk⟩) = false :=
    contains_eq_false_of_not_mem _ _ (getk_notin_take (get_json_files (FS.names fs)) k hk hndl)
  obtain ⟨itemk, reqk, hlookk, hparsek⟩ := hgood ((get_json_files (FS.names fs)).get ⟨k, hk⟩)
    (get_mem_self (get_json_files (FS.names fs)) k hk)
  have hlookP : FS.lookup
      (fs.filter (fun kv => !(((get_json_files (FS.names fs)).take k).contains kv.1)))
      ((get_json_files (FS.names fs)).get ⟨k, hk⟩) = some (.valid itemk) :=
    (FS.lookup_filter_keep fs
      (fun s => !(((get_json_files (FS.names fs)).take k).contains s))
      ((get_json_files (FS.names fs)).get ⟨k, hk⟩)
      (by
        show (!(((get_json_files (FS.names fs)).take k).contains
          ((get_json_files (FS.names fs)).get ⟨k, hk⟩))) = true
        rw [hcont]
        rfl)).trans hlookk
  have hsubk : submitOk (0 + k) = false := by simpa using hfail
  have hdisj : ∀ nm, nm ∈ (get_json_files (FS.names fs)).drop k →
      nm ∉ (get_json_files (FS.names fs)).take k := by
    intro nm hmem htake
    have hnd2 : ((get_json_files (FS.names fs)).take k ++
        (get_json_files (FS.names fs)).drop k).Nodup := by
      rw [List.take_append_drop]; exact hndl
    exact (List.nodup_append.mp hnd2).2.2 htake hmem
  rw [hout, heq]
  refine ⟨?_, ?_, ?_, ?_, ?_⟩
  · rw [hdropk]
    simp only [replay_go, hlookP, hparsek, hsubk]
    rw [if_neg Bool.false_ne_true]
  · rw [hdropk]
    simp only [replay_go, hlookP, hparsek, hsubk]
    rw [if_neg Bool.false_ne_true]
  · intro nm hnm
    rw [hdropk]
    simp only [replay_go, hlookP, hparsek, hsubk]
    rw [if_neg Bool.false_ne_true]
    exact FS.lookup_filter_drop fs
      (fun s => !(((get_json_files (FS.names fs)).take k).contains s)) nm
      (by
        show (!(((get_json_files (FS.names fs)).take k).contains nm)) = false
        rw [contains_eq_true_of_mem _ _ hnm]
        rfl)
  · intro nm hnm
    rw [hdropk]
    simp only [replay_go, hlookP, hparsek, hsubk]
    rw [if_neg Bool.false_ne_true]
    exact FS.lookup_filter_keep fs
      (fun s => !(((get_json_files (FS.names fs)).take k).contains s)) nm
      (by
        show (!(((get_json_files (FS.names fs)).take k).contains nm)) = true
        rw [contains_eq_false_of_not_mem _ _ (hdisj nm hnm)]
        rfl)
  · rw [hdropk]
    simp only [replay_go, hlookP, hparsek, hsubk]
    rw [if_neg Bool.false_ne_true]
    rw [← hdropk]
    have hnames : FS.names (fs.filter
        (fun kv => !(((get_json_files (FS.names fs)).take k).contains kv.1))) =
        (FS.names fs).filter (fun s => !(((get_json_files (FS.names fs)).take k).contains s)) :=
      FS.names_filter fs (fun s => !(((get_json_files (FS.names fs)).take k).contains s))
    show get_json_files (FS.names (fs.filter
      (fun kv => !(((get_json_files (FS.names fs)).take k).contains kv.1)))) = _
    rw [hnames]
    have hperm : ((FS.names fs).filter
        (fun s => !(((get_json_files (FS.names fs)).take k).contains s))).Perm
        ((get_json_files (FS.names fs)).filter
          (fun s => !(((get_json_files (FS.names fs)).take k).contains s))) :=
      List.Perm.filter _ (listing_perm (FS.names fs)).symm
    have hfil : (get_json_files (FS.names fs)).filter
        (fun s => !(((get_json_files (FS.names fs)).take k).contains s)) =
        (get_json_files (FS.names fs)).drop k := by
      have hinst := filter_append_not_contains
        ((get_json_files (FS.names fs)).take k) ((get_json_files (FS.names fs)).drop k)
        (by rw [List.take_append_drop]; exact hndl)
      rw [List.take_append_drop] at hinst
      exact hinst
    have hsorted : List.Sorted fileLe ((get_json_files (FS.names fs)).drop k) :=
      List.Pairwise.sublist (List.drop_sublist k _) (listing_sorted (FS.names fs))
    exact sortFiles_eq_of_perm _ _ (hfil ▸ hperm) hsorted

theorem parse_error_halts_witness :
    (replay_all [] (fun _ => true) false (some (fun _ => false)) true
      [("a.json", FileContent.valid (.obj [("type", JsonVal.str "PostChangeAPIRequest"),
        ("payload", JsonVal.obj [("child_id", JsonVal.int 1), ("is_wet", JsonVal.bool true),
          ("is_solid", JsonVal.bool false)])])),
       ("b.json", FileContent.malformed)]).result = .error .jsonDecodeError :=
  (parse_error_halts_despite_callback [] (fun _ => true) false (fun _ => false)
    [("a.json", FileContent.valid (.obj [("type", JsonVal.str "PostChangeAPIRequest"),
      ("payload", JsonVal.obj [("child_id", JsonVal.int 1), ("is_wet", JsonVal.bool true),
        ("is_solid", JsonVal.bool false)])])),
     ("b.json", FileContent.malformed)] 1 (by decide) (by decide)
    (by
      intro nm hnm
      have ht : List.take 1 (get_json_files (FS.names
          [("a.json", FileContent.valid (.obj [("type", JsonVal.str "PostChangeAPIRequest"),
            ("payload", JsonVal.obj [("child_id", JsonVal.int 1), ("is_wet", JsonVal.bool true),
              ("is_solid", JsonVal.bool false)])])),
           ("b.json", FileContent.malformed)])) = ["a.json"] := by decide
      rw [ht] at hnm
      have hnm2 : nm = "a.json" := by simpa using hnm
      subst hnm2
      exact ⟨_, _, rfl, rfl⟩)
    (fun i _ => rfl) rfl).1

theorem replay_halt_witness :
    get_json_files (FS.names (replay_all [] (fun i => i != 1) false none true
      [("a.json", FileContent.valid (.obj [("type", JsonVal.str "PostChangeAPIRequest"),
        ("payload", JsonVal.obj [("child_id", JsonVal.int 1), ("is_wet", JsonVal.bool true),
          ("is_solid", JsonVal.bool false)])])),
       ("b.json", FileContent.valid (.obj [("type", JsonVal.str "PostChangeAPIRequest"),
        ("payload", JsonVal.obj [("child_id", JsonVal.int 2), ("is_wet", JsonVal.bool false),
          ("is_solid", JsonVal.bool true)])])),
       ("c.json", FileContent.valid (.obj [("type", JsonVal.str "PostChangeAPIRequest"),
        ("payload", JsonVal.obj [("child_id", JsonVal.int 3), ("is_wet", JsonVal.bool true),
          ("is_solid", JsonVal.bool true)])]))]).fs) =
    List.drop 1 (get_json_files (FS.names
      [("a.json", FileContent.valid (.obj [("type", JsonVal.str "PostChangeAPIRequest"),
        ("payload", JsonVal.obj [("child_id", JsonVal.int 1), ("is_wet", JsonVal.bool true),
          ("is_solid", JsonVal.bool false)])])),
       ("b.json", FileContent.valid (.obj [("type", JsonVal.str "PostChangeAPIRequest"),
        ("payload", JsonVal.obj [("child_id", JsonVal.int 2), ("is_wet", JsonVal.bool false),
          ("is_solid", JsonVal.bool true)])])),
       ("c.json", FileContent.valid (.obj [("type", JsonVal.str "PostChangeAPIRequest"),
        ("payload", JsonVal.obj [("child_id", JsonVal.int 3), ("is_wet", JsonVal.bool true),
          ("is_solid", JsonVal.bool true)])]))])) :=
  (replay_halt_no_callback [] (fun i => i != 1) false
    [("a.json", FileContent.valid (.obj [("type", JsonVal.str "PostChangeAPIRequest"),
      ("payload", JsonVal.obj [("child_id", JsonVal.int 1), ("is_wet", JsonVal.bool true),
        ("is_solid", JsonVal.bool false)])])),
     ("b.json", FileContent.valid (.obj [("type", JsonVal.str "PostChangeAPIRequest"),
      ("payload", JsonVal.obj [("child_id", JsonVal.int 2), ("is_wet", JsonVal.bool false),
        ("is_solid", JsonVal.bool true)])])),
     ("c.json", FileContent.valid (.obj [("type", JsonVal.str "PostChangeAPIRequest"),
      ("payload", JsonVal.obj [("child_id", JsonVal.int 3), ("is_wet", JsonVal.bool true),
        ("is_solid", JsonVal.bool true)])]))] 1 (by decide) (by decide)
    (by
      intro nm hnm
      have ht : get_json_files (FS.names
          [("a.json", FileContent.valid (.obj [("type", JsonVal.str "PostChangeAPIRequest"),
            ("payload", JsonVal.obj [("child_id", JsonVal.int 1), ("is_wet", JsonVal.bool true),
              ("is_solid", JsonVal.bool false)])])),
           ("b.json", FileContent.valid (.obj [("type", JsonVal.str "PostChangeAPIRequest"),
            ("payload", JsonVal.obj [("child_id", JsonVal.int 2), ("is_wet", JsonVal.bool false),
              ("is_solid", JsonVal.bool true)])])),
           ("c.json", FileContent.valid (.obj [("type", JsonVal.str "PostChangeAPIRequest"),
            ("payload", JsonVal.obj [("child_id", JsonVal.int 3), ("is_wet", JsonVal.bool true),
              ("is_solid", JsonVal.bool true)])]))]) = ["a.json", "b.json", "c.json"] := by decide
      rw [ht] at hnm
      simp only [List.mem_cons, List.not_mem_nil, or_false] at hnm
      rcases hnm with hnm | hnm | hnm <;> subst hnm <;> exact ⟨_, _, rfl, rfl⟩)
    (by
      intro i hi
      have hi0 : i = 0 := by omega
      subst hi0
      rfl)
    rfl).2.2.2.2

/-! ## C5: suffix collision exhaustion -/

theorem candidateName_lt_suffix (base : List Char) (i j : Nat) (hj : j < 10000) (hij : i < j) :
    List.Lex (· < ·) (candidateName base i).data (candidateName base j).data := by
  show List.Lex (· < ·) (base ++ ('-' :: (padChars 4 i ++ ['.', 'j', 's', 'o', 'n'])))
    (base ++ ('-' :: (padChars 4 j ++ ['.', 'j', 's', 'o', 'n'])))
  apply lex_append_same_left
  apply List.Lex.cons
  exact lex_pad_lt 4 i j _ _ (by show i < 10 ^ 4; norm_num; omega)
    (by show j < 10 ^ 4; norm_num; omega) hij

theorem candidateName_ne (base : List Char) (i j : Nat) (hi : i < 10000) (hj : j < 10000)
    (hne : i ≠ j) : candidateName base i ≠ candidateName base j := by
  rcases Nat.lt_or_ge i j with h | h
  · intro he
    exact lex_ne _ _ (candidateName_lt_suffix base i j hj h) (congrArg String.data he)
  · have h2 : j < i := by omega
    intro he
    exact lex_ne _ _ (candidateName_lt_suffix base j i hi h2) (congrArg String.data he.symm)

theorem buildLoop_all_taken (names : List String) (base : List Char) :
    ∀ (fuel i : Nat),
      (∀ j, i ≤ j → j < i + fuel → names.contains (candidateName base j) = true) →
      buildLoop names base i fuel =
        .error (.valueError "No candidate files available, somehow") := by
  intro fuel
  induction fuel with
  | zero => intro i _; rfl
  | succ fuel ih =>
    intro i hall
    have h0 : names.contains (candidateName base i) = true := hall i (le_refl i) (by omega)
    simp only [buildLoop, h0, if_pos]
    exact ih (i + 1) (fun j hj1 hj2 => hall j (by omega) (by omega))

theorem buildLoop_finds (names : List String) (base : List Char) :
    ∀ (fuel i k : Nat), i ≤ k → k < i + fuel →
      (∀ j, i ≤ j → j < k → names.contains (candidateName base j) = true) →
      names.contains (candidateName base k) = false →
      buildLoop names base i fuel = .ok (candidateName base k) := by
  intro fuel
  induction fuel with
  | zero => intro i k h1 h2 _ _; omega
  | succ fuel ih =>
    intro i k h1 h2 hall hfree
    rcases Nat.eq_or_lt_of_le h1 with he | hlt
    · subst he
      simp only [buildLoop, hfree, Bool.false_eq_true, if_false]
    · have hi : names.contains (candidateName base i) = true := hall i (le_refl i) hlt
      simp only [buildLoop, hi, if_pos]
      exact ih (i + 1) k hlt (by omega) (fun j hj1 hj2 => hall j (by omega) hj2) hfree

theorem iterAdd_split (d : DateTime) (c : FileContent) :
    ∀ (m n : Nat) (fs : FS),
      iterAdd d c (m + n) fs = (iterAdd d c m fs).bind (iterAdd d c n) := by
  intro m
  induction m with
  | zero =>
    intro n fs
    rw [Nat.zero_add]
    rfl
  | succ m ih =>
    intro n fs
    rw [show m + 1 + n = (m + n) + 1 by omega]
    show (add fs d c).bind (iterAdd d c (m + n)) =
      ((add fs d c).bind (iterAdd d c m)).bind (iterAdd d c n)
    cases add fs d c with
    | error e => rfl
    | ok fs2 =>
      show iterAdd d c (m + n) fs2 = (iterAdd d c m fs2).bind (iterAdd d c n)
      exact ih n fs2

theorem names_of_candidates (d : DateTime) (c : FileContent) (m : Nat) :
    FS.names ((List.range m).map (fun i => (candidateName (fmtD d) i, c))) =
      (List.range m).map (fun i => candidateName (fmtD d) i) := by
  simp [FS.names, List.map_map]

theorem iterAdd_candidates (d : DateTime) (c : FileContent) :
    ∀ (n m : Nat), m + n ≤ 1000 →
      iterAdd d c n ((List.range m).map (fun i => (candidateName (fmtD d) i, c))) =
        .ok ((List.range (m + n)).map (fun i => (candidateName (fmtD d) i, c))) := by
  intro n
  induction n with
  | zero => intro m _; simp [iterAdd]
  | succ n ih =>
    intro m hle
    have hall : ∀ j, 0 ≤ j → j < m →
        (FS.names ((List.range m).map (fun i => (candidateName (fmtD d) i, c)))).contains
          (candidateName (fmtD d) j) = true := by
      intro j _ hj
      rw [names_of_candidates]
      exact contains_eq_true_of_mem _ _ (List.mem_map.mpr ⟨j, List.mem_range.mpr hj, rfl⟩)
    have hfree : (FS.names ((List.range m).map
        (fun i => (candidateName (fmtD d) i, c)))).contains (candidateName (fmtD d) m) = false := by
      rw [names_of_candidates]
      apply contains_eq_false_of_not_mem
      intro hmem
      obtain ⟨j, hjr, hje⟩ := List.mem_map.mp hmem
      have hj : j < m := List.mem_range.mp hjr
      exact candidateName_ne (fmtD d) j m (by omega) (by omega) (by omega) hje
    have hbuild : build_json_filename (FS.names ((List.range m).map
        (fun i => (candidateName (fmtD d) i, c)))) d = .ok (candidateName (fmtD d) m) :=
      buildLoop_finds _ _ 1000 0 m (Nat.zero_le m) (by omega) (fun j h1 h2 => hall j h1 h2) hfree
    show (add _ d c).bind _ = _
    rw [show add ((List.range m).map (fun i => (candidateName (fmtD d) i, c))) d c =
        .ok ((List.range m).map (fun i => (candidateName (fmtD d) i, c)) ++
          [(candidateName (fmtD d) m, c)]) by unfold add; rw [hbuild]; rfl]
    show iterAdd d c n _ = _
    rw [show (List.range m).map (fun i => (candidateName (fmtD d) i, c)) ++
        [(candidateName (fmtD d) m, c)] =
        (List.range (m + 1)).map (fun i => (candidateName (fmtD d) i, c)) by
      rw [List.range_succ, List.map_append]; rfl]
    rw [ih (m + 1) (by omega)]
    rw [show m + 1 + n = m + (n + 1) by omega]

set_option maxRecDepth 2000 in
/-- C5: under a fixed clock reading, if all 1000 suffix candidates for the
base key are already on disk, `build_json_filename` fails with the
queue-full `ValueError` and `add` writes nothing; equivalently, adding
1001 entries under an unchanging clock succeeds for the first 1000
(producing suffixes 0000-0999) and fails with that `ValueError` on the
1001st. -/
theorem queue_full_behavior (d : DateTime) (c : FileContent) :
    (∀ fs : FS,
      (∀ i, i < 1000 → (FS.names fs).contains (candidateName (fmtD d) i) = true) →
      build_json_filename (FS.names fs) d =
        .error (.valueError "No candidate files available, somehow") ∧
      add fs d c = .error (.valueError "No candidate files available, somehow")) ∧
    iterAdd d c 1000 [] =
      .ok ((List.range 1000).map (fun i => (candidateName (fmtD d) i, c))) ∧
    iterAdd d c 1001 [] =
      .error (.valueError "No candidate files available, somehow") := by
  have hfull : iterAdd d c 1000 [] =
      .ok ((List.range 1000).map (fun i => (candidateName (fmtD d) i, c))) := by
    have h := iterAdd_candidates d c 1000 0 (by omega)
    simpa using h
  refine ⟨?_, hfull, ?_⟩
  · intro fs hall
    have hb : build_json_filename (FS.names fs) d =
        .error (.valueError "No candidate files available, somehow") :=
      buildLoop_all_taken (FS.names fs) (fmtD d) 1000 0 (fun j _ h2 => hall j (by omega))
    exact ⟨hb, by unfold add; rw [hb]; rfl⟩
  · have hsplit := iterAdd_split d c 1000 1 []
    rw [show (1001 : Nat) = 1000 + 1 by norm_num, hsplit, hfull]
    show iterAdd d c 1 ((List.range 1000).map (fun i => (candidateName (fmtD d) i, c))) = _
    have hall2 : ∀ j, j < 1000 →
        (FS.names ((List.range 1000).map (fun i => (candidateName (fmtD d) i, c)))).contains
          (candidateName (fmtD d) j) = true := by
      intro j hj
      rw [names_of_candidates]
      exact contains_eq_true_of_mem _ _ (List.mem_map.mpr ⟨j, List.mem_range.mpr hj, rfl⟩)
    have hb : build_json_filename (FS.names ((List.range 1000).map
        (fun i => (candidateName (fmtD d) i, c)))) d =
        .error (.valueError "No candidate files available, somehow") :=
      buildLoop_all_taken _ (fmtD d) 1000 0 (fun j _ h2 => hall2 j (by omega))
    show (add _ d c).bind _ = _
    rw [show add ((List.range 1000).map (fun i => (candidateName (fmtD d) i, c))) d c =
        .error (.valueError "No candidate files available, somehow") by unfold add; rw [hb]; rfl]
    rfl

theorem queue_full_witness :
    build_json_filename (FS.names ((List.range 1000).map
      (fun i => (candidateName (fmtD (DateTime.mk 2024 1 1 0 0 0)) i, FileContent.malformed))))
      (DateTime.mk 2024 1 1 0 0 0) =
      .error (.valueError "No candidate files available, somehow") :=
  ((queue_full_behavior (DateTime.mk 2024 1 1 0 0 0) FileContent.malformed).1
    ((List.range 1000).map
      (fun i => (candidateName (fmtD (DateTime.mk 2024 1 1 0 0 0)) i, FileContent.malformed)))
    (fun i hi => by
      rw [names_of_candidates]
      exact contains_eq_true_of_mem _ _
        (List.mem_map.mpr ⟨i, List.mem_range.mpr hi, rfl⟩))).1

/-! ## C2: listing order equals insertion order -/

theorem candidateName_lt_base (d1 d2 : DateTime) (i j : Nat) (h1 : d1.Valid) (h2 : d2.Valid)
    (h : DateTime.lt d1 d2) :
    strLt (candidateName (fmtD d1) i) (candidateName (fmtD d2) j) := by
  show List.Lex (· < ·)
    (fmtD d1 ++ ('-' :: (padChars 4 i ++ ['.', 'j', 's', 'o', 'n'])))
    (fmtD d2 ++ ('-' :: (padChars 4 j ++ ['.', 'j', 's', 'o', 'n'])))
  exact lex_append_left_of_lex _ _ _ _ _ (by rw [fmtD_length, fmtD_length])
    (fmtD_lex d1 d2 h1 h2 h)

theorem build_free (names : List String) (d : DateTime)
    (hfree : names.contains (candidateName (fmtD d) 0) = false) :
    build_json_filename names d = .ok (candidateName (fmtD d) 0) := by
  show buildLoop names (fmtD d) 0 1000 = _
  rw [show (1000 : Nat) = 999 + 1 by norm_num]
  show (if names.contains (candidateName (fmtD d) 0) = true
    then buildLoop names (fmtD d) (0 + 1) 999
    else .ok (candidateName (fmtD d) 0)) = _
  rw [hfree, if_neg Bool.false_ne_true]

theorem addAll_ok (c : FileContent) :
    ∀ (ds : List DateTime) (fs : FS),
      (∀ d ∈ ds, ∀ nm ∈ FS.names fs, nm ≠ candidateName (fmtD d) 0) →
      ds.Pairwise (fun a b => candidateName (fmtD a) 0 ≠ candidateName (fmtD b) 0) →
      addAll c ds fs = .ok (fs ++ ds.map (fun d => (candidateName (fmtD d) 0, c))) := by
  intro ds
  induction ds with
  | nil => intro fs _ _; simp [addAll]
  | cons d rest ih =>
    intro fs hdist hpw
    have hfree : (FS.names fs).contains (candidateName (fmtD d) 0) = false :=
      contains_eq_false_of_not_mem _ _
        (fun hmem => hdist d (List.mem_cons_self d rest) _ hmem rfl)
    show (add fs d c).bind (addAll c rest) = _
    rw [show add fs d c = .ok (fs ++ [(candidateName (fmtD d) 0, c)]) by
      unfold add; rw [build_free (FS.names fs) d hfree]; rfl]
    show addAll c rest (fs ++ [(candidateName (fmtD d) 0, c)]) = _
    rw [ih (fs ++ [(candidateName (fmtD d) 0, c)])
      (by
        intro d2 hd2 nm hnm
        have hnames : FS.names (fs ++ [(candidateName (fmtD d) 0, c)]) =
            FS.names fs ++ [candidateName (fmtD d) 0] := by simp [FS.names]
        rw [hnames] at hnm
        rcases List.mem_append.mp hnm with hmem | hmem
        · exact hdist d2 (List.mem_cons_of_mem d hd2) nm hmem
        · have : nm = candidateName (fmtD d) 0 := by simpa using hmem
          subst this
          exact (List.pairwise_cons.mp hpw).1 d2 hd2
      )
      (List.pairwise_cons.mp hpw).2]
    rw [List.append_assoc]
    rfl

/-- C2: entries added at strictly increasing clock times carry filenames
that are a fixed-width zero-padded encoding of their creation time plus a
bounded numeric suffix; adding them in time order from an empty queue
succeeds with exactly those filenames, and the listing (`get_json_files` /
its full-path form), which sorts the raw directory listing, returns them
in insertion order regardless of any reordering of the underlying storage
listing. -/
theorem listing_equals_insertion_order (c : FileContent) (path : String) (ds : List DateTime)
    (hv : ∀ d ∈ ds, d.Valid) (hinc : ds.Pairwise DateTime.lt) :
    addAll c ds [] = .ok (ds.map (fun d => (candidateName (fmtD d) 0, c))) ∧
    (∀ listing : List String,
      listing.Perm (ds.map (fun d => candidateName (fmtD d) 0)) →
      get_json_files listing = ds.map (fun d => candidateName (fmtD d) 0) ∧
      get_json_paths path listing =
        (ds.map (fun d => candidateName (fmtD d) 0)).map (fun n => path ++ "/" ++ n)) := by
  have hpwlt : ds.Pairwise
      (fun a b => strLt (candidateName (fmtD a) 0) (candidateName (fmtD b) 0)) :=
    List.Pairwise.imp_of_mem
      (fun ha hb hab => candidateName_lt_base _ _ 0 0 (hv _ ha) (hv _ hb) hab) hinc
  constructor
  · have h := addAll_ok c ds []
      (fun d _ nm hnm => absurd hnm (List.not_mem_nil nm))
      (hpwlt.imp (fun h => strLt_ne _ _ h))
    simpa using h
  · intro listing hperm
    have hsorted : List.Sorted fileLe (ds.map (fun d => candidateName (fmtD d) 0)) := by
      rw [List.Sorted, List.pairwise_map]
      exact hpwlt.imp (fun h => fileLe_of_strLt _ _ h)
    have hsf : get_json_files listing = ds.map (fun d => candidateName (fmtD d) 0) :=
      sortFiles_eq_of_perm listing _ hperm hsorted
    exact ⟨hsf, by rw [get_json_paths, hsf]⟩

instance (d : DateTime) : Decidable d.Valid := by
  unfold DateTime.Valid; infer_instance

theorem listing_order_witness :
    addAll FileContent.malformed
      [DateTime.mk 2024 1 1 0 0 0, DateTime.mk 2024 1 1 0 0 1] [] =
      .ok ([DateTime.mk 2024 1 1 0 0 0, DateTime.mk 2024 1 1 0 0 1].map
        (fun d => (candidateName (fmtD d) 0, FileContent.malformed))) :=
  (listing_equals_insertion_order FileContent.malformed "/sd/queue"
    [DateTime.mk 2024 1 1 0 0 0, DateTime.mk 2024 1 1 0 0 1]
    (by decide)
    (by
      refine List.Pairwise.cons (fun d2 hd2 => ?_)
        (List.Pairwise.cons (fun d hd => absurd hd (List.not_mem_nil d)) List.Pairwise.nil)
      have : d2 = DateTime.mk 2024 1 1 0 0 1 := by simpa using hd2
      subst this
      show DateTime.lt (DateTime.mk 2024 1 1 0 0 0) (DateTime.mk 2024 1 1 0 0 1)
      decide)).1
